import Mathlib

/-!
Verification development for the image-analyzer repository.

The Go source (pkg/vision/detector.go and the cropper package) is embedded
shallowly:
* Go `float64` values are modeled as `ℚ` (exact rational arithmetic);
  `math.Sqrt` is modeled by `sqrtQ`, which is exact on perfect squares
  (every concrete evaluation below only takes square roots of perfect
  squares, namely 0);
* Go `int` is `ℤ`; Go integer division (truncation toward zero) is
  `Int.tdiv`; the conversion `int(f)` of a float is `goTrunc`;
* an `image.Image` is a structure with rectangle bounds and a pixel
  function returning the 16-bit `RGBA()` channels;
* Go's `for v := a; v <= b; v += s` / `v < b; v++` counting loops are
  embedded as folds over explicit position lists (`posRange`, `upRange`),
  and the two-index swapping sort of `filterAndScoreRegions` as the
  state-passing recursion `selectPass`/`sortGo` (the inner `j`-loop carries
  the current `filtered[i]` through the tail, which is exactly what the
  swap sequence does);
* `make([]T, n)` with a negative `n` crashes a Go program; this is modeled
  by the `Except` error `VisionFault.allocFault`, which propagates to the
  caller (no `recover` exists anywhere in the sources).
-/

namespace ImageAnalyzer

/-- The result of Go's `color.Color.RGBA()`: four 16-bit channels. -/
structure GoColor where
  r : ℕ
  g : ℕ
  b : ℕ
  a : ℕ
deriving DecidableEq

/-- A Go `image.Image`: rectangle bounds plus per-coordinate sampling.
`atPixel x y` models `img.At(x, y).RGBA()`. -/
structure Image where
  minX : ℤ
  minY : ℤ
  maxX : ℤ
  maxY : ℤ
  atPixel : ℤ → ℤ → GoColor

/-- `bounds.Dx()` of an image. -/
def width (img : Image) : ℤ := img.maxX - img.minX

/-- `bounds.Dy()` of an image. -/
def height (img : Image) : ℤ := img.maxY - img.minY

/-- Go `int(f)` conversion of a `float64`: truncation toward zero. -/
def goTrunc (q : ℚ) : ℤ := if q < 0 then -(Int.floor (-q)) else Int.floor q

/-- Model of `math.Sqrt` on `ℚ`: exact on rationals whose normalized
numerator and denominator are perfect squares (in particular on 0, the
only value it is applied to in concrete evaluations below). -/
def sqrtQ (q : ℚ) : ℚ := if q < 0 then 0 else (Nat.sqrt q.num.toNat : ℚ) / (Nat.sqrt q.den : ℚ)

/-- Positions visited by the Go loop `for v := 0; v <= bound; v += step`
(`step > 0` at every call site): the multiples of `step` up to `bound`. -/
def posRange (bound : ℤ) (step : ℕ) : List ℤ :=
  if bound < 0 then [] else (List.range (bound.toNat / step + 1)).map (fun k => ((k * step : ℕ) : ℤ))

/-- Positions visited by the Go loop `for v := lo; v < hi; v++`. -/
def upRange (lo hi : ℤ) : List ℤ :=
  (List.range (hi - lo).toNat).map (fun k => lo + (k : ℤ))

/-- `DetectionConfig` from pkg/vision/detector.go. -/
structure DetectionConfig where
  EdgeThreshold : ℚ
  ContrastWeight : ℚ
  ColorWeight : ℚ
  SaliencyWeight : ℚ
  MinSubjectRatio : ℚ
deriving DecidableEq

/-- `Region` from pkg/vision/detector.go. -/
structure Region where
  X : ℤ
  Y : ℤ
  Width : ℤ
  Height : ℤ
  Score : ℚ
deriving DecidableEq

/-- `Region.Area()`. -/
def Region.Area (r : Region) : ℤ := r.Width * r.Height

/-- A crash of the Go runtime (here: `make` with a negative length),
which propagates out of the vision package. -/
inductive VisionFault where
  | allocFault
deriving DecidableEq

/-- One cell of `calculateSaliencyMap`: the value stored at `(x, y)` by the
interior-pixel loop, 0 on the border (the slice is zero-initialized and the
loops run over `1 ≤ y < height-1`, `1 ≤ x < width-1`). -/
def saliencyCell (cfg : DetectionConfig) (img : Image) (x y : ℕ) : ℚ :=
  let w := width img
  let h := height img
  if 1 ≤ x ∧ (x : ℤ) < w - 1 ∧ 1 ≤ y ∧ (y : ℤ) < h - 1 then
    let c1 := img.atPixel ((x : ℤ) + img.minX) ((y : ℤ) + img.minY)
    let neighbors : List (ℤ × ℤ) :=
      [(-1, -1), (-1, 0), (-1, 1), (0, -1), (0, 1), (1, -1), (1, 0), (1, 1)]
    let edgeSum := neighbors.foldl (fun acc offset =>
      let c2 := img.atPixel ((x : ℤ) + offset.1 + img.minX) ((y : ℤ) + offset.2 + img.minY)
      let dr := (c1.r : ℚ) - (c2.r : ℚ)
      let dg := (c1.g : ℚ) - (c2.g : ℚ)
      let db := (c1.b : ℚ) - (c2.b : ℚ)
      acc + sqrtQ (dr * dr + dg * dg + db * db)) 0
    let edgeStrength := edgeSum / (8 * 65535)
    let brightness := ((c1.r : ℚ) + (c1.g : ℚ) + (c1.b : ℚ)) / (3 * 65535)
    cfg.ContrastWeight * edgeStrength + cfg.ColorWeight * brightness
  else 0

/-- `calculateSaliencyMap`: a `height × width` grid of saliency values. -/
def calculateSaliencyMap (cfg : DetectionConfig) (img : Image) : List (List ℚ) :=
  (List.range (height img).toNat).map (fun y =>
    (List.range (width img).toNat).map (fun x => saliencyCell cfg img x y))

/-- `calculateSaliencyMap` together with the `make` crash behavior:
`make([][]float64, height)` crashes when `height < 0`, and the per-row
`make([]float64, width)` crashes when `width < 0` and at least one row
exists. -/
def calculateSaliencyMapE (cfg : DetectionConfig) (img : Image) :
    Except VisionFault (List (List ℚ)) :=
  if height img < 0 then .error .allocFault
  else if 0 < height img ∧ width img < 0 then .error .allocFault
  else .ok (calculateSaliencyMap cfg img)

/-- `calculateRegionScore`: mean saliency over the window, clipped to the
grid (`ry < len(saliencyMap)`, `rx < len(saliencyMap[0])`). -/
def calculateRegionScore (saliencyMap : List (List ℚ)) (x y w h : ℤ) : ℚ :=
  let rows : ℤ := (saliencyMap.length : ℤ)
  let cols : ℤ := ((match saliencyMap with | [] => 0 | row :: _ => row.length) : ℤ)
  let rys := upRange y (min (y + h) rows)
  let rxs := upRange x (min (x + w) cols)
  let total := rys.foldl (fun t ry =>
    rxs.foldl (fun t rx => t + ((saliencyMap.getD ry.toNat []).getD rx.toNat 0)) t) 0
  let count := rys.length * rxs.length
  if count = 0 then 0 else total / (count : ℚ)

/-- `findImportantRegions`: multi-scale sliding-window scan. Window sizes
below 10 are skipped; stride is `windowSize / 8` on both axes. -/
def findImportantRegions (cfg : DetectionConfig) (saliencyMap : List (List ℚ))
    (w h : ℤ) : List Region :=
  let windowSizes : List ℤ := [w.tdiv 20, w.tdiv 16, w.tdiv 12, w.tdiv 8, w.tdiv 4]
  windowSizes.flatMap (fun windowSize =>
    if windowSize < 10 then []
    else
      let windowHeight := windowSize
      (posRange (h - windowHeight) (windowSize.tdiv 8).toNat).flatMap (fun y =>
        (posRange (w - windowSize) (windowSize.tdiv 8).toNat).flatMap (fun x =>
          let score := calculateRegionScore saliencyMap x y windowSize windowHeight
          if score > cfg.EdgeThreshold then
            [{ X := x, Y := y, Width := windowSize, Height := windowHeight, Score := score }]
          else [])))

/-- The inner `j`-loop of the sort in `filterAndScoreRegions`, for a fixed
outer index `i`: `cur` is the running `filtered[i]`; a swap stores the old
`filtered[i]` at position `j` and continues with `filtered[j]` as the new
`filtered[i]`. Returns the final `filtered[i]` and the final contents of
positions `i+1 ..`. -/
def selectPass : Region → List Region → Region × List Region
  | cur, [] => (cur, [])
  | cur, e :: rest =>
    if cur.Score < e.Score then
      let p := selectPass e rest
      (p.1, cur :: p.2)
    else
      let p := selectPass cur rest
      (p.1, e :: p.2)

theorem selectPass_length (cur : Region) (l : List Region) :
    (selectPass cur l).2.length = l.length := by
  induction l generalizing cur with
  | nil => rfl
  | cons e rest ih =>
    simp only [selectPass]
    split <;> simp [ih]

/-- The outer `i`-loop of the sort in `filterAndScoreRegions`, structurally
recursive on a fuel argument (`selectPass` preserves length, so fuel equal
to the list length runs the loop to completion). -/
def sortGoAux : ℕ → List Region → List Region
  | 0, l => l
  | _, [] => []
  | fuel + 1, cur :: rest =>
    let p := selectPass cur rest
    p.1 :: sortGoAux fuel p.2

/-- The outer `i`-loop of the sort in `filterAndScoreRegions`: once the
inner loop has placed the running maximum at position `i`, the loop
continues on positions `i+1 ..`. -/
def sortGo (l : List Region) : List Region := sortGoAux l.length l

/-- `filterAndScoreRegions`: area filter, then the descending swap sort. -/
def filterAndScoreRegions (cfg : DetectionConfig) (regions : List Region)
    (imageWidth imageHeight : ℤ) : List Region :=
  let imageArea := imageWidth * imageHeight
  let minArea := goTrunc ((imageArea : ℚ) * cfg.MinSubjectRatio)
  let filtered := regions.filter (fun region => minArea ≤ region.Area)
  sortGo filtered

/-- `DetectSubjects`: saliency map, scan, filter/sort, truncate to 10. -/
def DetectSubjects (cfg : DetectionConfig) (img : Image) :
    Except VisionFault (List Region) :=
  match calculateSaliencyMapE cfg img with
  | .error e => .error e
  | .ok saliencyMap =>
    let w := width img
    let h := height img
    let regions := findImportantRegions cfg saliencyMap w h
    let filteredRegions := filterAndScoreRegions cfg regions w h
    let maxRegions := 10
    .ok (if filteredRegions.length > maxRegions then filteredRegions.take maxRegions
         else filteredRegions)

/-- The filtered and sorted (untruncated) region list that
`DetectSubjects` computes before cutting to 10 entries; named here so that
lemmas can refer to it. -/
def detectPipeline (cfg : DetectionConfig) (img : Image) : List Region :=
  filterAndScoreRegions cfg
    (findImportantRegions cfg (calculateSaliencyMap cfg img) (width img) (height img))
    (width img) (height img)

/-- The crop-size computation inside `FindBestCropRegion`:
width-constrained when the target ratio exceeds the current ratio,
otherwise height-constrained; `int(...)` truncates. -/
def cropDims (w h : ℤ) (targetAspectRatio : ℚ) : ℤ × ℤ :=
  let currentRatio : ℚ := (w : ℚ) / (h : ℚ)
  if targetAspectRatio > currentRatio then
    (w, goTrunc ((w : ℚ) / targetAspectRatio))
  else
    (goTrunc ((h : ℚ) * targetAspectRatio), h)

/-- `scorecropPosition`: 1.0 when no subjects were detected, otherwise the
sum over subjects of `overlapArea / subjectArea * subject.Score`. -/
def scorecropPosition (subjects : List Region) (cropX cropY cropWidth cropHeight : ℤ) : ℚ :=
  match subjects with
  | [] => 1
  | _ :: _ =>
    subjects.foldl (fun score subject =>
      let overlapX1 := goTrunc (max (cropX : ℚ) (subject.X : ℚ))
      let overlapY1 := goTrunc (max (cropY : ℚ) (subject.Y : ℚ))
      let overlapX2 := goTrunc (min ((cropX + cropWidth : ℤ) : ℚ) ((subject.X + subject.Width : ℤ) : ℚ))
      let overlapY2 := goTrunc (min ((cropY + cropHeight : ℤ) : ℚ) ((subject.Y + subject.Height : ℤ) : ℚ))
      if overlapX2 > overlapX1 ∧ overlapY2 > overlapY1 then
        let overlapArea := (overlapX2 - overlapX1) * (overlapY2 - overlapY1)
        let overlapRatio := (overlapArea : ℚ) / (subject.Area : ℚ)
        score + overlapRatio * subject.Score
      else score) 0

/-- The initial best candidate of `findOptimalCropPosition`: the
geometrically centered window with score 0. -/
def cropSearchInit (cropWidth cropHeight imageWidth imageHeight : ℤ) : Region :=
  { X := (imageWidth - cropWidth).tdiv 2, Y := (imageHeight - cropHeight).tdiv 2,
    Width := cropWidth, Height := cropHeight, Score := 0 }

/-- The grid step of `findOptimalCropPosition`:
`max(10, int(max(cropWidth/20, cropHeight/20)))`. -/
def cropStepSize (cropWidth cropHeight : ℤ) : ℤ :=
  let s0 := goTrunc (max ((cropWidth : ℚ) / 20) ((cropHeight : ℚ) / 20))
  if s0 < 10 then 10 else s0

/-- The candidate top-left positions `(y, x)` visited by the two nested
loops of `findOptimalCropPosition` (y outer, x inner). -/
def cropCands (cropWidth cropHeight imageWidth imageHeight : ℤ) : List (ℤ × ℤ) :=
  let step := (cropStepSize cropWidth cropHeight).toNat
  (posRange (imageHeight - cropHeight) step).flatMap (fun y =>
    (posRange (imageWidth - cropWidth) step).map (fun x => (y, x)))

/-- The loop body of `findOptimalCropPosition`: replace the best candidate
(and best score) only when the window's score is strictly greater. -/
def cropSearchStep (subjects : List Region) (cropWidth cropHeight : ℤ)
    (st : Region × ℚ) (c : ℤ × ℤ) : Region × ℚ :=
  let score := scorecropPosition subjects c.2 c.1 cropWidth cropHeight
  if score > st.2 then
    ({ X := c.2, Y := c.1, Width := cropWidth, Height := cropHeight, Score := score }, score)
  else st

/-- `findOptimalCropPosition`: grid search (y outer, x inner) over top-left
positions, starting from the centered window with score 0. -/
def findOptimalCropPosition (subjects : List Region)
    (cropWidth cropHeight imageWidth imageHeight : ℤ) : Region :=
  ((cropCands cropWidth cropHeight imageWidth imageHeight).foldl
    (cropSearchStep subjects cropWidth cropHeight)
    (cropSearchInit cropWidth cropHeight imageWidth imageHeight, 0)).1

/-- `FindBestCropRegion`: detect subjects, compute crop size, search. -/
def FindBestCropRegion (cfg : DetectionConfig) (img : Image)
    (targetAspectRatio : ℚ) : Except VisionFault Region :=
  match DetectSubjects cfg img with
  | .error e => .error e
  | .ok subjects =>
    let w := width img
    let h := height img
    let dims := cropDims w h targetAspectRatio
    .ok (findOptimalCropPosition subjects dims.1 dims.2 w h)

/-! ## The cropper package (src/unnamed/part_002) -/

/-- `CropConfig` from the cropper package. -/
structure CropConfig where
  PreserveAspectRatio : Bool
  AllowUpscaling : Bool
  PaddingRatio : ℚ
  QualityThreshold : ℚ
deriving DecidableEq

/-- `SmartCropper`: holds a subject detector (represented by its
configuration, the only state a detector has) and a crop configuration. -/
structure SmartCropper where
  detectorConfig : DetectionConfig
  config : CropConfig

/-- A failed crop request: either the explicit `invalid image dimensions`
error, or a propagated runtime crash from the vision layer. -/
inductive CropFailure where
  | invalidDimensions
  | allocFault
deriving DecidableEq

/-- `CropResult` (the derived cropped image view is omitted: no claim
inspects it, and it is a pure function of `Region` and the image). -/
structure CropResult where
  Region : Region
  AspectRatio : ℚ
  Quality : ℚ
deriving DecidableEq

/-- The unclamped composite quality sum of `calculateCropQuality`:
`0.3*preservationRatio + 0.3*ratioAccuracy + 0.3*subjectScore +
0.1*centeringScore`. -/
def cropQualityRaw (originalWidth originalHeight : ℤ) (region : Region)
    (targetRatio : ℚ) : ℚ :=
  let originalArea := originalWidth * originalHeight
  let cropArea := region.Width * region.Height
  let preservationRatio := (cropArea : ℚ) / (originalArea : ℚ)
  let cropRatio := (region.Width : ℚ) / (region.Height : ℚ)
  let ratioAccuracy := 1 - |cropRatio - targetRatio| / max cropRatio targetRatio
  let subjectScore := region.Score
  let centerX := originalWidth.tdiv 2
  let centerY := originalHeight.tdiv 2
  let cropCenterX := region.X + region.Width.tdiv 2
  let cropCenterY := region.Y + region.Height.tdiv 2
  let maxDistance := sqrtQ ((originalWidth * originalWidth + originalHeight * originalHeight : ℤ) : ℚ)
  let distance := sqrtQ (((centerX - cropCenterX) * (centerX - cropCenterX)
    + (centerY - cropCenterY) * (centerY - cropCenterY) : ℤ) : ℚ)
  let centeringScore := 1 - distance / maxDistance
  (3 / 10) * preservationRatio + (3 / 10) * ratioAccuracy
    + (3 / 10) * subjectScore + (1 / 10) * centeringScore

/-- `calculateCropQuality`: the raw sum followed by the two clamping `if`
statements of the source. -/
def calculateCropQuality (originalWidth originalHeight : ℤ) (region : Region)
    (targetRatio : ℚ) : ℚ :=
  let quality := cropQualityRaw originalWidth originalHeight region targetRatio
  let q1 := if quality > 1 then 1 else quality
  if q1 < 0 then 0 else q1

/-- `CropToRatio`: reject zero dimensions, find the best crop region,
compute the quality score. A vision-layer crash propagates (modeled as
`CropFailure.allocFault`). -/
def CropToRatio (c : SmartCropper) (img : Image) (targetRatio : ℚ) :
    Except CropFailure CropResult :=
  let originalWidth := width img
  let originalHeight := height img
  if originalWidth = 0 ∨ originalHeight = 0 then .error .invalidDimensions
  else
    match FindBestCropRegion c.detectorConfig img targetRatio with
    | .error _ => .error .allocFault
    | .ok cropRegion =>
      .ok { Region := cropRegion, AspectRatio := targetRatio,
            Quality := calculateCropQuality originalWidth originalHeight cropRegion targetRatio }

/-- `CropToRatio` in state-passing form: the method body never assigns to
any field of the receiver, so the cropper state is returned unchanged. -/
def CropToRatioSt (c : SmartCropper) (img : Image) (targetRatio : ℚ) :
    SmartCropper × Except CropFailure CropResult :=
  (c, CropToRatio c img targetRatio)

/-- `CropWithPadding` in state-passing form. The source temporarily
overwrites `c.config.PaddingRatio` for the duration of the call and
restores it with `defer`. The returned triple is
(state after the deferred restore, state observed during the inner
`CropToRatio` call, result). -/
def CropWithPadding (c : SmartCropper) (img : Image) (targetRatio paddingRatio : ℚ) :
    SmartCropper × SmartCropper × Except CropFailure CropResult :=
  let originalPadding := c.config.PaddingRatio
  let cDuring : SmartCropper := { c with config := { c.config with PaddingRatio := paddingRatio } }
  let step := CropToRatioSt cDuring img targetRatio
  let cFinal : SmartCropper := { step.1 with config := { step.1.config with PaddingRatio := originalPadding } }
  (cFinal, cDuring, step.2)

/-! ## GetDominantColors -/

/-- An 8-bit `color.RGBA` value as produced by `GetDominantColors`. -/
structure RGBA8 where
  r : ℕ
  g : ℕ
  b : ℕ
  a : ℕ
deriving DecidableEq

/-- The quantized histogram key of a pixel: each channel reduced to its
4 most significant 8-bit bits, packed as `r<<16 | g<<8 | b`. -/
def quantKey (c : GoColor) : ℕ :=
  let r := (c.r >>> 8) &&& 0xf0
  let g := (c.g >>> 8) &&& 0xf0
  let b := (c.b >>> 8) &&& 0xf0
  (r <<< 16) ||| (g <<< 8) ||| b

/-- Association-list lookup with default 0: `colorMap[key]`. -/
def lookupCount : List (ℕ × ℕ) → ℕ → ℕ
  | [], _ => 0
  | (k, c) :: rest, key => if k = key then c else lookupCount rest key

/-- `colorMap[key]++`: increment, inserting the key on first sight. -/
def bumpKey : List (ℕ × ℕ) → ℕ → List (ℕ × ℕ)
  | [], key => [(key, 1)]
  | (k, c) :: rest, key =>
    if k = key then (k, c + 1) :: rest else (k, c) :: bumpKey rest key

/-- The clamped sampling bounds of `GetDominantColors`
(`int(math.Max(...))` / `int(math.Min(...))` on the region and the image
bounds). -/
def clampStartX (img : Image) (region : Region) : ℤ :=
  goTrunc (max (region.X : ℚ) (img.minX : ℚ))

def clampStartY (img : Image) (region : Region) : ℤ :=
  goTrunc (max (region.Y : ℚ) (img.minY : ℚ))

def clampEndX (img : Image) (region : Region) : ℤ :=
  goTrunc (min ((region.X + region.Width : ℤ) : ℚ) (img.maxX : ℚ))

def clampEndY (img : Image) (region : Region) : ℤ :=
  goTrunc (min ((region.Y + region.Height : ℤ) : ℚ) (img.maxY : ℚ))

/-- The color histogram of `GetDominantColors`: quantized-bucket counts
over the clamped region, represented as an association list in pixel-scan
(insertion) order. -/
def colorHistogram (img : Image) (region : Region) : List (ℕ × ℕ) :=
  let ys := upRange (clampStartY img region) (clampEndY img region)
  let xs := upRange (clampStartX img region) (clampEndX img region)
  ys.foldl (fun m y => xs.foldl (fun m x => bumpKey m (quantKey (img.atPixel x y))) m) []

/-- The keys of the histogram, in insertion order. A Go `range` over the
map visits exactly these keys, in an unspecified (runtime-chosen) order. -/
def histKeys (img : Image) (region : Region) : List ℕ :=
  (colorHistogram img region).map Prod.fst

/-- The emission loop of `GetDominantColors`: over the map in iteration
order, append every color whose count reaches the threshold, and stop as
soon as 5 colors have been collected. -/
def emitColors (hist : List (ℕ × ℕ)) (threshold : ℕ) :
    List ℕ → List RGBA8 → List RGBA8
  | [], colors => colors
  | key :: keys, colors =>
    if lookupCount hist key ≥ threshold then
      let c : RGBA8 := ⟨(key >>> 16) &&& 0xff, (key >>> 8) &&& 0xff, key &&& 0xff, 255⟩
      let colors' := colors ++ [c]
      if colors'.length ≥ 5 then colors' else emitColors hist threshold keys colors'
    else emitColors hist threshold keys colors

/-- `GetDominantColors`, parameterized by the order `order` in which the Go
runtime iterates the `colorMap`; Go specifies no order, so any permutation
of the histogram's keys is a possible run. `maxCount` is the largest bucket
count seen while ranging over the map, `threshold = maxCount / 4`. -/
def GetDominantColors (img : Image) (region : Region) (order : List ℕ) : List RGBA8 :=
  let hist := colorHistogram img region
  let maxCount := order.foldl (fun m key =>
    if lookupCount hist key > m then lookupCount hist key else m) 0
  let threshold := maxCount / 4
  emitColors hist threshold order []

/-! ## Spec-side comparison definitions -/

/-- Modelled from the spec: insertion of a region into a descending-sorted
list that keeps earlier-produced regions ahead of later ones with the same
score ("ties preserve the relative order in which regions were produced by
the scanner"). -/
def specInsertDesc (x : Region) : List Region → List Region
  | [] => [x]
  | y :: ys => if x.Score < y.Score then y :: specInsertDesc x ys else x :: y :: ys

/-- Modelled from the spec: the stable descending-by-score sort that §4.3
of the spec prescribes for the survivors of the area filter. -/
def specStableSortDesc : List Region → List Region
  | [] => []
  | x :: xs => specInsertDesc x (specStableSortDesc xs)

/-- Modelled from the spec: the crop pipeline in which the position
optimizer "consumes the full filtered and sorted list, untruncated"
(§4.3/§4.4) — identical to `FindBestCropRegion` except that the
subject list is not cut to 10 entries. -/
def specFindBestCropUntruncated (cfg : DetectionConfig) (img : Image)
    (targetAspectRatio : ℚ) : Except VisionFault Region :=
  match calculateSaliencyMapE cfg img with
  | .error e => .error e
  | .ok saliencyMap =>
    let w := width img
    let h := height img
    let regions := findImportantRegions cfg saliencyMap w h
    let subjects := filterAndScoreRegions cfg regions w h
    let dims := cropDims w h targetAspectRatio
    .ok (findOptimalCropPosition subjects dims.1 dims.2 w h)

/-! ## Concrete inputs used by counterexamples and witnesses -/

/-- A pure-white pixel at the full 16-bit range. -/
def whiteC : GoColor := ⟨65535, 65535, 65535, 65535⟩

/-- A pure-black pixel. -/
def blackC : GoColor := ⟨0, 0, 0, 0⟩

/-- A uniform white 30×20 image. All scan window sizes derived from the
width 30 are below 10 pixels, so subject detection returns no regions. -/
def imgWhite3020 : Image := ⟨0, 0, 30, 20, fun _ _ => whiteC⟩

/-- A uniform white 30×10 image (also yields zero detected subjects). -/
def imgWhite3010 : Image := ⟨0, 0, 30, 10, fun _ _ => whiteC⟩

/-- A uniform white 40×10 image: the only usable scan window size is
`40/4 = 10`, giving 31 candidate windows (x = 0..30, stride 1), each of
area 100. -/
def imgWhite4010 : Image := ⟨0, 0, 40, 10, fun _ _ => whiteC⟩

/-- A 2×1 image with a white pixel at (0,0) and a black pixel at (1,0). -/
def imgWB21 : Image := ⟨0, 0, 2, 1, fun x _ => if x = 0 then whiteC else blackC⟩

/-- An image whose (non-canonical) bounds give a negative width. -/
def imgNegW : Image := ⟨0, 0, -5, 10, fun _ _ => whiteC⟩

/-- An image of width 0. -/
def imgZeroW : Image := ⟨0, 0, 0, 10, fun _ _ => whiteC⟩

/-- The default configuration of `vision.New()` (0.01, 0.3, 0.2, 0.5,
0.05), with the float literals read as exact rationals. -/
def cfgDefault : DetectionConfig := ⟨1/100, 3/10, 1/5, 1/2, 1/20⟩

/-- A custom configuration: brightness-only saliency (weights 0 and 1),
edge threshold 1/2, minimum subject ratio 1/8. All values are dyadic, hence
exactly representable as `float64`. -/
def cfgScan8 : DetectionConfig := ⟨1/2, 0, 1, 0, 1/8⟩

/-- Like `cfgScan8` but with minimum subject ratio 129/512 = 0.251953125
(dyadic, exactly representable as `float64`): for a 40×10 image,
`imageArea * minSubjectRatio = 100.78125`, which truncates to 100 but
rounds to 101. -/
def cfgScan512 : DetectionConfig := ⟨1/2, 0, 1, 0, 129/512⟩

/-- A cropper with dyadic configuration values. -/
def cropperX : SmartCropper :=
  ⟨cfgDefault, ⟨true, false, 1/4, 3/4⟩⟩

/-! ## Helper lemmas -/

theorem foldl_preserve {α β : Type _} (f : α → β → α) (P : α → Prop) :
    ∀ (l : List β) (s : α), P s → (∀ s' b, b ∈ l → P s' → P (f s' b)) →
      P (l.foldl f s) := by
  intro l
  induction l with
  | nil => intro s hs _; exact hs
  | cons b t ih =>
    intro s hs hstep
    exact ih (f s b) (hstep s b (List.mem_cons_self b t) hs)
      (fun s' c hc hs' => hstep s' c (List.mem_cons_of_mem b hc) hs')

theorem foldl_fixed {α β : Type _} (f : α → β → α) (s : α) :
    ∀ (l : List β), (∀ b ∈ l, f s b = s) → l.foldl f s = s := by
  intro l
  induction l with
  | nil => intro _; rfl
  | cons b t ih =>
    intro hfix
    have hb : f s b = s := hfix b (List.mem_cons_self b t)
    simp only [List.foldl_cons, hb]
    exact ih (fun c hc => hfix c (List.mem_cons_of_mem b hc))

theorem posRange_mem_bounds {bound : ℤ} {step : ℕ} {x : ℤ}
    (hx : x ∈ posRange bound step) : 0 ≤ x ∧ x ≤ bound := by
  unfold posRange at hx
  split at hx
  · simp at hx
  · next hb =>
    simp only [List.mem_map, List.mem_range] at hx
    obtain ⟨k, hk, rfl⟩ := hx
    refine ⟨Int.ofNat_nonneg _, ?_⟩
    have hk' : k ≤ bound.toNat / step := Nat.lt_succ_iff.mp hk
    have hmul : k * step ≤ bound.toNat :=
      le_trans (Nat.mul_le_mul_right _ hk') (Nat.div_mul_le_self _ _)
    calc ((k * step : ℕ) : ℤ) ≤ (bound.toNat : ℤ) := Int.ofNat_le.mpr hmul
    _ = bound := Int.toNat_of_nonneg (not_lt.mp hb)

theorem posRange_cons {bound : ℤ} (step : ℕ) (h : 0 ≤ bound) :
    ∃ t, posRange bound step = (0 : ℤ) :: t := by
  refine ⟨(List.map Nat.succ (List.range (bound.toNat / step))).map
    (fun k => ((k * step : ℕ) : ℤ)), ?_⟩
  unfold posRange
  rw [if_neg (not_lt.mpr h), List.range_succ_eq_map]
  simp

theorem selectPass_perm (cur : Region) (l : List Region) :
    List.Perm ((selectPass cur l).1 :: (selectPass cur l).2) (cur :: l) := by
  induction l generalizing cur with
  | nil => exact List.Perm.refl _
  | cons e rest ih =>
    simp only [selectPass]
    split
    · exact (List.Perm.swap cur (selectPass e rest).1 (selectPass e rest).2).trans
        ((ih e).cons cur)
    · exact ((List.Perm.swap e (selectPass cur rest).1 (selectPass cur rest).2).trans
        (((ih cur).cons e).trans (List.Perm.swap cur e rest)))

theorem selectPass_max (cur : Region) (l : List Region) :
    cur.Score ≤ (selectPass cur l).1.Score ∧
    ∀ e ∈ (selectPass cur l).2, e.Score ≤ (selectPass cur l).1.Score := by
  induction l generalizing cur with
  | nil => exact ⟨le_refl _, by simp [selectPass]⟩
  | cons e rest ih =>
    simp only [selectPass]
    split
    · next hlt =>
      refine ⟨le_trans (le_of_lt hlt) (ih e).1, ?_⟩
      intro b hb
      rcases List.mem_cons.mp hb with rfl | hb'
      · exact le_trans (le_of_lt hlt) (ih e).1
      · exact (ih e).2 b hb'
    · next hge =>
      refine ⟨(ih cur).1, ?_⟩
      intro b hb
      rcases List.mem_cons.mp hb with rfl | hb'
      · exact le_trans (not_lt.mp hge) (ih cur).1
      · exact (ih cur).2 b hb'

theorem sortGoAux_perm (fuel : ℕ) : ∀ l : List Region, (sortGoAux fuel l).Perm l := by
  induction fuel with
  | zero => intro l; cases l <;> exact List.Perm.refl _
  | succ n ih =>
    intro l
    cases l with
    | nil => exact List.Perm.refl _
    | cons cur rest =>
      simp only [sortGoAux]
      exact ((ih _).cons _).trans (selectPass_perm cur rest)

theorem sortGoAux_sorted (fuel : ℕ) : ∀ l : List Region, l.length ≤ fuel →
    (sortGoAux fuel l).Pairwise (fun a b => b.Score ≤ a.Score) := by
  induction fuel with
  | zero =>
    intro l hl
    rw [List.eq_nil_of_length_eq_zero (Nat.le_zero.mp hl)]
    exact List.Pairwise.nil
  | succ n ih =>
    intro l hl
    cases l with
    | nil => exact List.Pairwise.nil
    | cons cur rest =>
      simp only [sortGoAux]
      refine List.Pairwise.cons ?_ (ih _ ?_)
      · intro b hb
        exact (selectPass_max cur rest).2 b ((sortGoAux_perm n _).subset hb)
      · rw [selectPass_length]
        exact Nat.succ_le_succ_iff.mp hl

theorem sortGo_perm (l : List Region) : (sortGo l).Perm l := sortGoAux_perm _ l

theorem sortGo_sorted (l : List Region) :
    (sortGo l).Pairwise (fun a b => b.Score ≤ a.Score) :=
  sortGoAux_sorted _ l (le_refl _)

theorem filterAndScoreRegions_perm (cfg : DetectionConfig) (regions : List Region)
    (w h : ℤ) :
    (filterAndScoreRegions cfg regions w h).Perm
      (regions.filter (fun region =>
        goTrunc (((w * h : ℤ) : ℚ) * cfg.MinSubjectRatio) ≤ region.Area)) := by
  unfold filterAndScoreRegions
  exact sortGo_perm _

theorem filterAndScoreRegions_mem {cfg : DetectionConfig} {regions : List Region}
    {w h : ℤ} {reg : Region}
    (hreg : reg ∈ filterAndScoreRegions cfg regions w h) :
    reg ∈ regions ∧ goTrunc (((w * h : ℤ) : ℚ) * cfg.MinSubjectRatio) ≤ reg.Area := by
  have := (filterAndScoreRegions_perm cfg regions w h).subset hreg
  have h2 := List.mem_filter.mp this
  exact ⟨h2.1, of_decide_eq_true h2.2⟩

theorem findImportantRegions_mem {cfg : DetectionConfig} {saliencyMap : List (List ℚ)}
    {w h : ℤ} {reg : Region} (hreg : reg ∈ findImportantRegions cfg saliencyMap w h) :
    10 ≤ reg.Width ∧ reg.Height = reg.Width ∧ cfg.EdgeThreshold < reg.Score := by
  unfold findImportantRegions at hreg
  simp only [List.mem_flatMap] at hreg
  obtain ⟨s, _, hreg⟩ := hreg
  by_cases h10 : s < 10
  · rw [if_pos h10] at hreg
    simp at hreg
  · rw [if_neg h10] at hreg
    simp only [List.mem_flatMap] at hreg
    obtain ⟨y, _, hreg⟩ := hreg
    obtain ⟨x, _, hreg⟩ := hreg
    split at hreg
    · next hscore =>
      rw [List.mem_singleton] at hreg
      subst hreg
      exact ⟨not_lt.mp h10, rfl, hscore⟩
    · simp at hreg

theorem truncIf_length (l : List Region) :
    (if l.length > 10 then l.take 10 else l).length ≤ 10 := by
  split
  · simpa using Nat.min_le_left 10 l.length
  · next h => exact not_lt.mp h

theorem truncIf_subset {l : List Region} {reg : Region}
    (h : reg ∈ (if l.length > 10 then l.take 10 else l)) : reg ∈ l := by
  split at h
  · exact List.take_subset 10 l h
  · exact h

theorem DetectSubjects_eq (cfg : DetectionConfig) (img : Image)
    (hh : 0 ≤ height img) (hw : 0 ≤ width img) :
    DetectSubjects cfg img = .ok
      (if (detectPipeline cfg img).length > 10 then (detectPipeline cfg img).take 10
       else detectPipeline cfg img) := by
  unfold DetectSubjects calculateSaliencyMapE
  rw [if_neg (not_lt.mpr hh), if_neg (by rintro ⟨_, h2⟩; exact absurd hw (not_le.mpr h2))]
  rfl

theorem FindBestCropRegion_eq {cfg : DetectionConfig} {img : Image}
    {subjects : List Region} (hsub : DetectSubjects cfg img = .ok subjects) (r : ℚ) :
    FindBestCropRegion cfg img r = .ok (findOptimalCropPosition subjects
      (cropDims (width img) (height img) r).1
      (cropDims (width img) (height img) r).2 (width img) (height img)) := by
  unfold FindBestCropRegion
  rw [hsub]

theorem tdiv_two_bounds {a : ℤ} (ha : 0 ≤ a) : 0 ≤ a.tdiv 2 ∧ a.tdiv 2 ≤ a := by
  lift a to ℕ using ha
  rw [show ((2 : ℤ)) = ((2 : ℕ) : ℤ) from rfl, ← Int.ofNat_tdiv]
  exact ⟨Int.ofNat_nonneg _, Int.ofNat_le.mpr (Nat.div_le_self _ _)⟩

theorem cropDims_bounds {w h : ℤ} {r : ℚ} (hw : 0 < w) (hh : 0 < h) (hr : 0 < r) :
    0 ≤ (cropDims w h r).1 ∧ (cropDims w h r).1 ≤ w ∧
    0 ≤ (cropDims w h r).2 ∧ (cropDims w h r).2 ≤ h := by
  have hwq : (0 : ℚ) < (w : ℚ) := by exact_mod_cast hw
  have hhq : (0 : ℚ) < (h : ℚ) := by exact_mod_cast hh
  simp only [cropDims]
  split
  · next hgt =>
    have hdiv : (0 : ℚ) ≤ (w : ℚ) / r := le_of_lt (div_pos hwq hr)
    have htr : goTrunc ((w : ℚ) / r) = Int.floor ((w : ℚ) / r) := by
      unfold goTrunc
      rw [if_neg (not_lt.mpr hdiv)]
    have hwlt : (w : ℚ) < r * (h : ℚ) := (div_lt_iff hhq).mp hgt
    have hlt : (w : ℚ) / r < ((h : ℤ) : ℚ) := by
      rw [div_lt_iff hr]
      push_cast
      linarith
    refine ⟨le_of_lt hw, le_refl w, ?_, ?_⟩
    · rw [htr]
      exact Int.floor_nonneg.mpr hdiv
    · rw [htr]
      exact le_of_lt (Int.floor_lt.mpr hlt)
  · next hle =>
    have hle' : r ≤ (w : ℚ) / (h : ℚ) := not_lt.mp hle
    have hmul : (h : ℚ) * r ≤ (w : ℚ) := by
      have := (le_div_iff hhq).mp hle'
      linarith [this]
    have hpos : (0 : ℚ) ≤ (h : ℚ) * r := le_of_lt (mul_pos hhq hr)
    have htr : goTrunc ((h : ℚ) * r) = Int.floor ((h : ℚ) * r) := by
      unfold goTrunc
      rw [if_neg (not_lt.mpr hpos)]
    refine ⟨?_, ?_, le_of_lt hh, le_refl h⟩
    · rw [htr]
      exact Int.floor_nonneg.mpr hpos
    · rw [htr]
      calc Int.floor ((h : ℚ) * r) ≤ Int.floor ((w : ℤ) : ℚ) := Int.floor_le_floor (by push_cast; linarith)
      _ = w := Int.floor_intCast w

theorem findOptimal_empty {cw ch W H : ℤ} (h1 : 0 ≤ W - cw) (h2 : 0 ≤ H - ch) :
    findOptimalCropPosition [] cw ch W H = ⟨0, 0, cw, ch, 1⟩ := by
  simp only [findOptimalCropPosition, cropCands]
  obtain ⟨ty, hy⟩ := posRange_cons (cropStepSize cw ch).toNat h2
  obtain ⟨tx, hx⟩ := posRange_cons (cropStepSize cw ch).toNat h1
  rw [hy, hx]
  have hstep1 : cropSearchStep [] cw ch (cropSearchInit cw ch W H, 0) (0, 0)
      = (⟨0, 0, cw, ch, 1⟩, 1) := by
    simp only [cropSearchStep, scorecropPosition]
    norm_num
  have hfix : ∀ b : ℤ × ℤ, cropSearchStep [] cw ch (⟨0, 0, cw, ch, 1⟩, 1) b
      = (⟨0, 0, cw, ch, 1⟩, 1) := by
    intro b
    simp only [cropSearchStep, scorecropPosition]
    norm_num
  simp only [List.flatMap_cons, List.map_cons, List.cons_append, List.foldl_cons,
    List.foldl_append, hstep1]
  rw [foldl_fixed _ _ _ (fun b _ => hfix b), foldl_fixed _ _ _ (fun b _ => hfix b)]

theorem findOptimal_bounds (subjects : List Region) {cw ch W H : ℤ}
    (hcw0 : 0 ≤ cw) (hcwW : cw ≤ W) (hch0 : 0 ≤ ch) (hchH : ch ≤ H) :
    (findOptimalCropPosition subjects cw ch W H).Width = cw ∧
    (findOptimalCropPosition subjects cw ch W H).Height = ch ∧
    0 ≤ (findOptimalCropPosition subjects cw ch W H).X ∧
    (findOptimalCropPosition subjects cw ch W H).X + cw ≤ W ∧
    0 ≤ (findOptimalCropPosition subjects cw ch W H).Y ∧
    (findOptimalCropPosition subjects cw ch W H).Y + ch ≤ H := by
  unfold findOptimalCropPosition
  refine foldl_preserve _ (fun st : Region × ℚ => st.1.Width = cw ∧ st.1.Height = ch ∧
    0 ≤ st.1.X ∧ st.1.X + cw ≤ W ∧ 0 ≤ st.1.Y ∧ st.1.Y + ch ≤ H) _ _ ?_ ?_
  · unfold cropSearchInit
    obtain ⟨hx0, hx1⟩ := tdiv_two_bounds (by linarith : (0 : ℤ) ≤ W - cw)
    obtain ⟨hy0, hy1⟩ := tdiv_two_bounds (by linarith : (0 : ℤ) ≤ H - ch)
    exact ⟨rfl, rfl, hx0, by linarith, hy0, by linarith⟩
  · intro s' b hb hs'
    simp only [cropSearchStep]
    split
    · simp only [cropCands, List.mem_flatMap, List.mem_map] at hb
      obtain ⟨y, hy, x, hx, rfl⟩ := hb
      obtain ⟨hy0, hy1⟩ := posRange_mem_bounds hy
      obtain ⟨hx0, hx1⟩ := posRange_mem_bounds hx
      exact ⟨rfl, rfl, hx0, by linarith, hy0, by linarith⟩
    · exact hs'

/-! ## Claim theorems

The `Rat` arithmetic operations of the core library are `@[irreducible]`;
the concrete evaluations below re-enable their definitional unfolding
locally so that `decide` can run the embedded program. -/

deriving instance DecidableEq for Except

section ClaimTheorems

attribute [local semireducible] Rat.mul Rat.add Rat.sub Rat.inv

set_option maxRecDepth 1000000

/-- C1, counterexample: on the uniform white 30×20 image subject detection
returns the empty list, yet `FindBestCropRegion` with target ratio 1 does
not return the centered window `((30-20)/2, 0, 20, 20)` with score 0: the
position search is not skipped, every candidate window scores the constant
1.0, and the first grid position (0,0) wins with score 1. -/
theorem C1_counterexample :
    DetectSubjects cfgDefault imgWhite3020 = .ok [] ∧
    FindBestCropRegion cfgDefault imgWhite3020 1 = .ok ⟨0, 0, 20, 20, 1⟩ ∧
    (⟨0, 0, 20, 20, 1⟩ : Region) ≠ ⟨5, 0, 20, 20, 0⟩ :=
  ⟨by decide, by decide, by decide⟩

/-- C1, amended: when subject detection yields an empty region list and
image dimensions and target ratio are positive, `FindBestCropRegion`
returns the first scanned grid position `(0, 0, cropWidth, cropHeight)`
with score 1.0 (every candidate scores the default 1.0 and only a strictly
greater score replaces the best), not the centered window with score 0. -/
theorem C1_empty_subjects_first_window (cfg : DetectionConfig) (img : Image) (r : ℚ)
    (hw : 0 < width img) (hh : 0 < height img) (hr : 0 < r)
    (hsub : DetectSubjects cfg img = .ok []) :
    FindBestCropRegion cfg img r = .ok
      ⟨0, 0, (cropDims (width img) (height img) r).1,
        (cropDims (width img) (height img) r).2, 1⟩ := by
  rw [FindBestCropRegion_eq hsub]
  obtain ⟨h1, h2, h3, h4⟩ := cropDims_bounds hw hh hr
  rw [findOptimal_empty (by linarith) (by linarith)]

/-- C1, witness: the amended theorem applied to the white 30×20 image with
target ratio 1. -/
theorem C1_witness :
    0 < width imgWhite3020 ∧ 0 < height imgWhite3020 ∧ (0 : ℚ) < 1 ∧
    DetectSubjects cfgDefault imgWhite3020 = .ok [] ∧
    FindBestCropRegion cfgDefault imgWhite3020 1 = .ok
      ⟨0, 0, (cropDims (width imgWhite3020) (height imgWhite3020) 1).1,
        (cropDims (width imgWhite3020) (height imgWhite3020) 1).2, 1⟩ :=
  ⟨by decide, by decide, by decide, by decide,
    C1_empty_subjects_first_window cfgDefault imgWhite3020 1 (by decide) (by decide)
      (by decide) (by decide)⟩

/-- C2, counterexample: on the white 30×10 image with target ratio 4 the
crop is width-constrained and the code computes
`cropHeight = int(30/4.0) = 7` (truncation), while the claim's formula
`round(W/r)` gives 8. -/
theorem C2_counterexample :
    FindBestCropRegion cfgDefault imgWhite3010 4 = .ok ⟨0, 0, 30, 7, 1⟩ ∧
    round ((30 : ℚ) / 4) = 8 ∧ (7 : ℤ) ≠ 8 :=
  ⟨by decide, by decide, by decide⟩

/-- C2, amended: for positive dimensions and target ratio, the crop size is
width-constrained `(W, trunc(W/r))` when `r > W/H` and height-constrained
`(trunc(H*r), H)` otherwise (`int(...)` truncates rather than rounds), and
the returned region always satisfies `0 ≤ x`, `0 ≤ y`, `x+width ≤ W`,
`y+height ≤ H`: the crop never exceeds the source image. -/
theorem C2_crop_size_and_bounds (cfg : DetectionConfig) (img : Image) (r : ℚ)
    (hw : 0 < width img) (hh : 0 < height img) (hr : 0 < r) :
    ∃ reg, FindBestCropRegion cfg img r = .ok reg ∧
      reg.Width = (cropDims (width img) (height img) r).1 ∧
      reg.Height = (cropDims (width img) (height img) r).2 ∧
      (r > (width img : ℚ) / (height img : ℚ) →
        cropDims (width img) (height img) r
          = (width img, goTrunc ((width img : ℚ) / r))) ∧
      (¬ r > (width img : ℚ) / (height img : ℚ) →
        cropDims (width img) (height img) r
          = (goTrunc ((height img : ℚ) * r), height img)) ∧
      0 ≤ reg.X ∧ 0 ≤ reg.Y ∧
      reg.X + reg.Width ≤ width img ∧ reg.Y + reg.Height ≤ height img := by
  obtain ⟨S, hS⟩ : ∃ S, DetectSubjects cfg img = .ok S :=
    ⟨_, DetectSubjects_eq cfg img (le_of_lt hh) (le_of_lt hw)⟩
  obtain ⟨hcw0, hcwW, hch0, hchH⟩ := cropDims_bounds hw hh hr
  obtain ⟨hW, hH, hx0, hxW, hy0, hyH⟩ :=
    findOptimal_bounds S hcw0 hcwW hch0 hchH
  refine ⟨_, FindBestCropRegion_eq hS r, hW, hH, ?_, ?_, hx0, hy0, ?_, ?_⟩
  · intro hgt
    simp only [cropDims]
    rw [if_pos hgt]
  · intro hle
    simp only [cropDims]
    rw [if_neg hle]
  · rw [hW]; exact hxW
  · rw [hH]; exact hyH

/-- C2, witness: the amended theorem applied to the white 30×10 image with
target ratio 4. -/
theorem C2_witness :
    0 < width imgWhite3010 ∧ 0 < height imgWhite3010 ∧ (0 : ℚ) < 4 ∧
    (∃ reg, FindBestCropRegion cfgDefault imgWhite3010 4 = .ok reg ∧
      reg.Width = (cropDims (width imgWhite3010) (height imgWhite3010) 4).1 ∧
      reg.Height = (cropDims (width imgWhite3010) (height imgWhite3010) 4).2 ∧
      ((4 : ℚ) > (width imgWhite3010 : ℚ) / (height imgWhite3010 : ℚ) →
        cropDims (width imgWhite3010) (height imgWhite3010) 4
          = (width imgWhite3010, goTrunc ((width imgWhite3010 : ℚ) / 4))) ∧
      (¬ (4 : ℚ) > (width imgWhite3010 : ℚ) / (height imgWhite3010 : ℚ) →
        cropDims (width imgWhite3010) (height imgWhite3010) 4
          = (goTrunc ((height imgWhite3010 : ℚ) * 4), height imgWhite3010)) ∧
      0 ≤ reg.X ∧ 0 ≤ reg.Y ∧
      reg.X + reg.Width ≤ width imgWhite3010 ∧
      reg.Y + reg.Height ≤ height imgWhite3010) :=
  ⟨by decide, by decide, by decide,
    C2_crop_size_and_bounds cfgDefault imgWhite3010 4 (by decide) (by decide) (by decide)⟩

/-- C3: for positive image dimensions, positive crop dimensions and a
positive target ratio, `calculateCropQuality` equals the weighted sum
`0.3*preservation + 0.3*ratioAccuracy + 0.3*subjectScore + 0.1*centering`
clamped to `[0, 1]`, and therefore always lies in `[0, 1]` even though the
`subjectScore` term is unbounded. -/
theorem C3_quality_clamped (w h : ℤ) (region : Region) (r : ℚ)
    (hw : 0 < w) (hh : 0 < h) (hrw : 0 < region.Width) (hrh : 0 < region.Height)
    (hr : 0 < r) :
    calculateCropQuality w h region r
      = max 0 (min 1 (cropQualityRaw w h region r)) ∧
    0 ≤ calculateCropQuality w h region r ∧
    calculateCropQuality w h region r ≤ 1 := by
  have key : calculateCropQuality w h region r
      = max 0 (min 1 (cropQualityRaw w h region r)) := by
    simp only [calculateCropQuality]
    rcases lt_or_le 1 (cropQualityRaw w h region r) with h1 | h1
    · rw [if_pos h1, if_neg (by norm_num), min_eq_left (le_of_lt h1),
        max_eq_right (by norm_num : (0 : ℚ) ≤ 1)]
    · rw [if_neg (not_lt.mpr h1), min_eq_right h1]
      rcases lt_or_le (cropQualityRaw w h region r) 0 with h2 | h2
      · rw [if_pos h2, max_eq_left (le_of_lt h2)]
      · rw [if_neg (not_lt.mpr h2), max_eq_right h2]
  refine ⟨key, ?_, ?_⟩
  · rw [key]; exact le_max_left 0 _
  · rw [key]; exact max_le (by norm_num) (min_le_left 1 _)

/-- C3, witness: the theorem applied to a 40×10 image, the crop region
`(10, 0, 10, 10)` with score 22/5, and target ratio 1. -/
theorem C3_witness :
    (0 : ℤ) < 40 ∧ (0 : ℤ) < 10 ∧
    (0 : ℤ) < (⟨10, 0, 10, 10, 22/5⟩ : Region).Width ∧
    (0 : ℤ) < (⟨10, 0, 10, 10, 22/5⟩ : Region).Height ∧ (0 : ℚ) < 1 ∧
    (calculateCropQuality 40 10 ⟨10, 0, 10, 10, 22/5⟩ 1
      = max 0 (min 1 (cropQualityRaw 40 10 ⟨10, 0, 10, 10, 22/5⟩ 1)) ∧
    0 ≤ calculateCropQuality 40 10 ⟨10, 0, 10, 10, 22/5⟩ 1 ∧
    calculateCropQuality 40 10 ⟨10, 0, 10, 10, 22/5⟩ 1 ≤ 1) :=
  ⟨by decide, by decide, by decide, by decide, by decide,
    C3_quality_clamped 40 10 ⟨10, 0, 10, 10, 22/5⟩ 1 (by decide) (by decide)
      (by decide) (by decide) (by decide)⟩

set_option maxHeartbeats 12000000 in
/-- C4, counterexample: on the white 40×10 image with target ratio 1 the
scanner yields 31 filtered regions; `FindBestCropRegion` feeds the
optimizer the 10-element truncation (best position score 22/5), while the
spec's untruncated pipeline would score the same position 8 — the results
differ, so the optimizer does not consume the untruncated list. -/
theorem C4_counterexample :
    FindBestCropRegion cfgScan8 imgWhite4010 1
      ≠ specFindBestCropUntruncated cfgScan8 imgWhite4010 1 := by decide

/-- C4, amended: for positive dimensions, the crop-position optimizer
inside `FindBestCropRegion` consumes exactly the list returned by
`DetectSubjects`, which is the filtered and sorted list truncated to at
most 10 entries. -/
theorem C4_optimizer_consumes_truncated (cfg : DetectionConfig) (img : Image) (r : ℚ)
    (hw : 0 < width img) (hh : 0 < height img) :
    ∃ subjects, DetectSubjects cfg img = .ok subjects ∧ subjects.length ≤ 10 ∧
      FindBestCropRegion cfg img r = .ok (findOptimalCropPosition subjects
        (cropDims (width img) (height img) r).1
        (cropDims (width img) (height img) r).2 (width img) (height img)) := by
  have hd := DetectSubjects_eq cfg img (le_of_lt hh) (le_of_lt hw)
  exact ⟨_, hd, truncIf_length _, FindBestCropRegion_eq hd r⟩

/-- C4, witness: the amended theorem applied to the white 30×20 image with
target ratio 1. -/
theorem C4_witness :
    0 < width imgWhite3020 ∧ 0 < height imgWhite3020 ∧
    (∃ subjects, DetectSubjects cfgDefault imgWhite3020 = .ok subjects ∧
      subjects.length ≤ 10 ∧
      FindBestCropRegion cfgDefault imgWhite3020 1 = .ok (findOptimalCropPosition subjects
        (cropDims (width imgWhite3020) (height imgWhite3020) 1).1
        (cropDims (width imgWhite3020) (height imgWhite3020) 1).2
        (width imgWhite3020) (height imgWhite3020))) :=
  ⟨by decide, by decide,
    C4_optimizer_consumes_truncated cfgDefault imgWhite3020 1 (by decide) (by decide)⟩

set_option maxHeartbeats 12000000 in
/-- C5, counterexample: on the white 40×10 image with
`minSubjectRatio = 129/512` the detector returns 10 regions of area 100
each, yet `round(imageArea * minSubjectRatio) = round(100.78125) = 101`:
the filter truncates (`int(...)`) instead of rounding, so the claimed
area bound `area ≥ round(imageArea*minSubjectRatio)` fails. -/
theorem C5_counterexample :
    DetectSubjects cfgScan512 imgWhite4010 =
      .ok ((List.range 10).map (fun k => ⟨(k : ℤ) + 1, 0, 10, 10, 4/5⟩)) ∧
    round (((width imgWhite4010 * height imgWhite4010 : ℤ) : ℚ)
      * cfgScan512.MinSubjectRatio) = 101 ∧
    ((List.range 10).map (fun k => (⟨(k : ℤ) + 1, 0, 10, 10, 4/5⟩ : Region))).all
      (fun reg => decide (reg.Area < 101)) = true :=
  ⟨by decide, by decide, by decide⟩

/-- C5, amended: under a nonnegative edge threshold, `DetectSubjects`
returns at most 10 regions and every returned region has positive width
and height, nonnegative score, and area at least
`trunc(imageArea * minSubjectRatio)` (the filter truncates, it does not
round). -/
theorem C5_detect_invariants (cfg : DetectionConfig) (img : Image) (l : List Region)
    (hthr : 0 ≤ cfg.EdgeThreshold)
    (hl : DetectSubjects cfg img = .ok l) :
    l.length ≤ 10 ∧ ∀ reg ∈ l, 0 < reg.Width ∧ 0 < reg.Height ∧ 0 ≤ reg.Score ∧
      goTrunc (((width img * height img : ℤ) : ℚ) * cfg.MinSubjectRatio) ≤ reg.Area := by
  have hl' : l = (if (detectPipeline cfg img).length > 10
      then (detectPipeline cfg img).take 10 else detectPipeline cfg img) := by
    unfold DetectSubjects at hl
    unfold calculateSaliencyMapE at hl
    split at hl
    · simp at hl
    · next x m heq =>
      split at heq
      · simp at heq
      · split at heq
        · simp at heq
        · have hmap := (Except.ok.injEq _ _).mp heq
          subst hmap
          exact ((Except.ok.injEq _ _).mp hl).symm
  subst hl'
  refine ⟨truncIf_length _, ?_⟩
  intro reg hreg
  have hfil := truncIf_subset hreg
  obtain ⟨hraw, harea⟩ := filterAndScoreRegions_mem hfil
  obtain ⟨hw10, hhw, hscore⟩ := findImportantRegions_mem hraw
  refine ⟨by linarith, by rw [hhw]; linarith, le_of_lt (lt_of_le_of_lt hthr hscore), harea⟩

/-- C5, witness: the amended theorem applied to the white 30×20 image with
the default configuration, on which detection returns the empty list. -/
theorem C5_witness :
    0 ≤ cfgDefault.EdgeThreshold ∧
    (([] : List Region).length ≤ 10 ∧ ∀ reg ∈ ([] : List Region),
      0 < reg.Width ∧ 0 < reg.Height ∧ 0 ≤ reg.Score ∧
      goTrunc (((width imgWhite3020 * height imgWhite3020 : ℤ) : ℚ)
        * cfgDefault.MinSubjectRatio) ≤ reg.Area) :=
  ⟨by decide, C5_detect_invariants cfgDefault imgWhite3020 [] (by decide) (by decide)⟩

/-- C6, counterexample: the swap-based sort of `filterAndScoreRegions` is
not stable. With three surviving regions A=(0,0,10,10,score 1),
B=(1,0,10,10,score 1), C=(2,0,10,10,score 2), produced in that order, the
code returns [C, B, A] while the spec's stable descending sort returns
[C, A, B]: the two tied regions come back in reversed relative order. -/
theorem C6_counterexample :
    filterAndScoreRegions cfgScan8
      [⟨0, 0, 10, 10, 1⟩, ⟨1, 0, 10, 10, 1⟩, ⟨2, 0, 10, 10, 2⟩] 40 10 =
      [⟨2, 0, 10, 10, 2⟩, ⟨1, 0, 10, 10, 1⟩, ⟨0, 0, 10, 10, 1⟩] ∧
    specStableSortDesc
      ([⟨0, 0, 10, 10, 1⟩, ⟨1, 0, 10, 10, 1⟩, ⟨2, 0, 10, 10, 2⟩].filter
        (fun region => goTrunc (((40 * 10 : ℤ) : ℚ) * cfgScan8.MinSubjectRatio)
          ≤ region.Area)) =
      [⟨2, 0, 10, 10, 2⟩, ⟨0, 0, 10, 10, 1⟩, ⟨1, 0, 10, 10, 1⟩] ∧
    ([⟨2, 0, 10, 10, 2⟩, ⟨1, 0, 10, 10, 1⟩, ⟨0, 0, 10, 10, 1⟩] : List Region) ≠
      [⟨2, 0, 10, 10, 2⟩, ⟨0, 0, 10, 10, 1⟩, ⟨1, 0, 10, 10, 1⟩] :=
  ⟨by decide, by decide, by decide⟩

/-- C6, amended: the region filter's output is a permutation of the
surviving regions with non-increasing scores; equal-score regions may come
back in a different relative order than the scanner produced them (the
swap-based selection sort is not stable). -/
theorem C6_sort_descending_perm (cfg : DetectionConfig) (regions : List Region)
    (w h : ℤ) :
    (filterAndScoreRegions cfg regions w h).Pairwise (fun a b => b.Score ≤ a.Score) ∧
    (filterAndScoreRegions cfg regions w h).Perm (regions.filter
      (fun region => goTrunc (((w * h : ℤ) : ℚ) * cfg.MinSubjectRatio)
        ≤ region.Area)) :=
  ⟨sortGo_sorted _, filterAndScoreRegions_perm cfg regions w h⟩

/-- C7: `GetDominantColors` is not a deterministic function of the image,
region and configuration: its output depends on the order in which the Go
runtime iterates the color histogram map, which the language leaves
unspecified (and randomizes in practice). On a 2×1 white/black image both
quantized colors qualify, and two legal iteration orders of the same
histogram return the two colors in different orders. -/
theorem C7_map_iteration_order_changes_output :
    (histKeys imgWB21 ⟨0, 0, 2, 1, 0⟩).reverse.Perm (histKeys imgWB21 ⟨0, 0, 2, 1, 0⟩) ∧
    GetDominantColors imgWB21 ⟨0, 0, 2, 1, 0⟩ (histKeys imgWB21 ⟨0, 0, 2, 1, 0⟩) ≠
      GetDominantColors imgWB21 ⟨0, 0, 2, 1, 0⟩
        (histKeys imgWB21 ⟨0, 0, 2, 1, 0⟩).reverse :=
  ⟨by decide, by decide⟩

/-- C8, counterexample: an image with negative width (non-canonical
bounds) is not caught by the `width == 0 || height == 0` guard; the call
fails with a propagated runtime crash (negative-length `make` in the
saliency map), not with the invalid-dimensions error. -/
theorem C8_counterexample :
    CropToRatio cropperX imgNegW 1 = .error .allocFault ∧
    CropFailure.allocFault ≠ CropFailure.invalidDimensions :=
  ⟨by decide, by decide⟩

/-- C8, amended: a crop request on an image whose width or height is
exactly zero fails with the invalid-dimensions error before any ratio
arithmetic (the guard precedes `FindBestCropRegion` and hence the
`width/height` division), and no result region is produced; negative
dimensions, however, pass the guard. -/
theorem C8_zero_dims_rejected (c : SmartCropper) (img : Image) (r : ℚ)
    (h : width img = 0 ∨ height img = 0) :
    CropToRatio c img r = .error .invalidDimensions := by
  unfold CropToRatio
  rw [if_pos h]

/-- C8, witness: the amended theorem applied to a width-0 image. -/
theorem C8_witness :
    (width imgZeroW = 0 ∨ height imgZeroW = 0) ∧
    CropToRatio cropperX imgZeroW 1 = .error .invalidDimensions :=
  ⟨Or.inl (by decide), C8_zero_dims_rejected cropperX imgZeroW 1 (Or.inl (by decide))⟩

/-- C9, counterexample: `CropWithPadding` transiently mutates the stored
configuration: during the inner `CropToRatio` call the cropper's
`PaddingRatio` is the override (1/2), not the constructed value (1/4), so
the configuration is not unchanged at all points of the call. -/
theorem C9_counterexample :
    (CropWithPadding cropperX imgWhite3020 1 (1/2)).2.1.config ≠ cropperX.config := by
  decide

/-- C9, amended: every cropper operation leaves the stored configuration
unchanged once the call returns: `CropToRatio` never writes the receiver,
and `CropWithPadding` restores the original `PaddingRatio` via its
deferred assignment — but it does overwrite `PaddingRatio` for the
duration of the inner call. -/
theorem C9_config_restored (c : SmartCropper) (img : Image) (r p : ℚ) :
    (CropWithPadding c img r p).1 = c ∧ (CropToRatioSt c img r).1 = c :=
  ⟨rfl, rfl⟩

/-- C10: when the clamped intersection of the region with the image bounds
contains no pixels, `GetDominantColors` returns the empty list for every
possible map iteration order: the histogram is empty, `maxCount` is 0, and
nothing is emitted. -/
theorem C10_empty_region_empty_colors (img : Image) (region : Region) (order : List ℕ)
    (hempty : clampEndX img region ≤ clampStartX img region ∨
      clampEndY img region ≤ clampStartY img region)
    (horder : order.Perm (histKeys img region)) :
    GetDominantColors img region order = [] := by
  have hhist : colorHistogram img region = [] := by
    unfold colorHistogram
    rcases hempty with hx | hy
    · have hxs : upRange (clampStartX img region) (clampEndX img region) = [] := by
        unfold upRange
        rw [Int.toNat_eq_zero.mpr (by linarith)]
        rfl
      rw [hxs]
      exact foldl_fixed _ _ _ (fun b _ => rfl)
    · have hys : upRange (clampStartY img region) (clampEndY img region) = [] := by
        unfold upRange
        rw [Int.toNat_eq_zero.mpr (by linarith)]
        rfl
      rw [hys]
      rfl
  have hkeys : histKeys img region = [] := by
    unfold histKeys
    rw [hhist]
    rfl
  rw [hkeys] at horder
  rw [List.Perm.eq_nil horder]
  unfold GetDominantColors
  rw [hhist]
  rfl

/-- C10, witness: a region entirely outside the 2×1 image, with the empty
iteration order (the only permutation of the empty key set). -/
theorem C10_witness :
    (clampEndX imgWB21 ⟨5, 5, 3, 3, 0⟩ ≤ clampStartX imgWB21 ⟨5, 5, 3, 3, 0⟩ ∨
      clampEndY imgWB21 ⟨5, 5, 3, 3, 0⟩ ≤ clampStartY imgWB21 ⟨5, 5, 3, 3, 0⟩) ∧
    ([] : List ℕ).Perm (histKeys imgWB21 ⟨5, 5, 3, 3, 0⟩) ∧
    GetDominantColors imgWB21 ⟨5, 5, 3, 3, 0⟩ [] = [] :=
  ⟨Or.inl (by decide), by decide,
    C10_empty_region_empty_colors imgWB21 ⟨5, 5, 3, 3, 0⟩ []
      (Or.inl (by decide)) (by decide)⟩

end ClaimTheorems

end ImageAnalyzer

